import Mathlib

/-!
# Mobile data import (`torch/csrc/jit/mobile/import_data.cpp`)

A shallow embedding of the bytecode deserializer used to load the parameters of
a mobile module: the sequential record reader, the type resolver, the object
loader and the top-level `_load_mobile_data` entry point, followed by the
properties established about them.
-/

set_option autoImplicit false

namespace torch.jit

/-! ## The sequential reader of `readArchive` -/

/-- A byte of a record (`char`). -/
abbrev Byte := UInt8

/-- Number of values of `size_t`, taken as 64 bits wide. -/
def SIZE_RANGE : Nat := 2 ^ 64

/-- Subtraction of two `size_t` values: wraps around on underflow. -/
def size_sub (a b : Nat) : Nat := (a + SIZE_RANGE - b) % SIZE_RANGE

/-- Addition of two `size_t` values: wraps around on overflow. -/
def size_add (a b : Nat) : Nat := (a + b) % SIZE_RANGE

/-- The bytes `std::memcpy(buffer, data + start, len)` places in `buffer`. -/
def memcpy (data : List Byte) (start len : Nat) : List Byte :=
  (data.drop start).take len

/-- Outcome of one call of the `reader` closure: what was written to `buffer`,
the returned count and the updated `bytes_read`. -/
structure ReadResult where
  buffer : List Byte
  returned : Nat
  bytes_read : Nat
  deriving DecidableEq, Repr

/-- The `reader` closure of `readArchive` (lines 70-80): `data` and
`pickle_size` are the record, `bytes_read` the captured position. -/
def reader (data : List Byte) (pickle_size bytes_read len : Nat) : ReadResult :=
  if bytes_read ≥ pickle_size then
    { buffer := [], returned := 0, bytes_read := bytes_read }
  else
    let len := min (size_sub pickle_size bytes_read) len
    { buffer := memcpy data bytes_read len
      returned := len
      bytes_read := size_add bytes_read len }

/-- Successive calls of `reader` with the requested lengths `lens`, starting
from position `bytes_read`: the results of the calls, in order. -/
def readCalls (data : List Byte) (pickle_size : Nat) : Nat → List Nat → List ReadResult
  | _, [] => []
  | bytes_read, len :: lens =>
    let r := reader data pickle_size bytes_read len
    r :: readCalls data pickle_size r.bytes_read lens

/-- Position of the reader after the calls `lens`, starting from `bytes_read`. -/
def readPosition (data : List Byte) (pickle_size : Nat) : Nat → List Nat → Nat
  | bytes_read, [] => bytes_read
  | bytes_read, len :: lens =>
    readPosition data pickle_size (reader data pickle_size bytes_read len).bytes_read lens

/-! ## Names, types and values -/

/-- A dotted name (`c10::QualifiedName`), kept as its atoms:
`__torch__.Foo` is `["__torch__", "Foo"]`. -/
structure QualifiedName where
  atoms : List String
  deriving DecidableEq, Repr

/-- The dotted rendering `qn.qualifiedName()`. -/
def QualifiedName.qualifiedName (qn : QualifiedName) : String :=
  ".".intercalate qn.atoms

/-- Modelled from the spec: `QualifiedName::isPrefixOf` (declared outside this
file), the test whether `other` falls under the namespace `self`: the atoms of
`self` are the leading atoms of `other`. -/
def QualifiedName.isPrefixOf (self other : QualifiedName) : Bool :=
  self.atoms.isPrefixOf other.atoms

/-- The constructor `QualifiedName(prefix, name)`: `name` inside `pre`. -/
def QualifiedName.child (pre : QualifiedName) (name : String) : QualifiedName :=
  { atoms := pre.atoms ++ [name] }

/-- The reserved root namespace, `static const c10::QualifiedName torchPrefix = "__torch__"`. -/
def torchPrefix : QualifiedName := { atoms := ["__torch__"] }

/-- A type handle (`TypePtr`). A class of the compilation unit is identified by
its position in the unit's list of classes, so two handles are identical
exactly when they are equal; a class of the custom class registry is
identified by its registered name. -/
inductive TypePtr where
  | NoneType
  | IntType
  | BoolType
  | StringType
  | TensorType
  | DictType
  | ClassType (slot : Nat)
  | CustomClassType (name : String)
  deriving DecidableEq, Repr

/-- A deserialized value (`c10::IValue`). -/
inductive IValue where
  | None
  | Int (i : Int)
  | Bool (b : Bool)
  | String (s : String)
  | Tensor (record : String)
  | GenericDict (entries : List (IValue × IValue))
  | Object (type : TypePtr) (slots : List IValue)

/-- The dynamic type of a value, `IValue::type()`. -/
def IValue.type : IValue → TypePtr
  | .None => .NoneType
  | .Int _ => .IntType
  | .Bool _ => .BoolType
  | .String _ => .StringType
  | .Tensor _ => .TensorType
  | .GenericDict _ => .DictType
  | .Object t _ => t

/-- Failure kinds of the deserialization hooks. -/
inductive Error where
  | RecordNotFound
  | TypeResolutionFailure
  | AttributeConflict
  | PayloadShapeMismatch
  | MethodDispatchFailure (msg : String)
  | ExpectedClassType
  deriving DecidableEq, Repr

/-- Modelled from the spec: `IValue::toGenericDict` (declared outside this
file): the entries of a keyed mapping in iteration order; any other payload is
a payload shape mismatch. -/
def IValue.toGenericDict : IValue → Except Error (List (IValue × IValue))
  | .GenericDict entries => .ok entries
  | _ => .error .PayloadShapeMismatch

/-- An object instance (`c10::ivalue::Object`): its type and its slots. -/
structure Object where
  type : TypePtr
  slots : List IValue

/-- Modelled from the spec: `Object::create(type, numSlots)` (declared outside
this file): an instance of `type` with `numSlots` empty slots. -/
def Object.create (type : TypePtr) (numSlots : Nat) : Object :=
  { type := type, slots := List.replicate numSlots IValue.None }

/-- Modelled from the spec: `Object::setSlot(i, v)` (declared outside this
file): slot `i` now holds `v`, the other slots are untouched. -/
def Object.setSlot (obj : Object) (i : Nat) (v : IValue) : Object :=
  { obj with slots := obj.slots.set i v }

/-- A class type: its name, the module flag given at creation and the
attributes declared so far, in declaration order. The position of an attribute
in `attributes` is the slot index the type binds its name to. -/
structure ClassType where
  name : QualifiedName
  is_module : Bool
  attributes : List (String × TypePtr)
  deriving DecidableEq, Repr

/-- Modelled from the spec: `ClassType::create(qn, cu, is_module)` (declared
outside this file): a new class with that name and module flag and no
attribute yet. -/
def ClassType.create (qn : QualifiedName) (is_module : Bool) : ClassType :=
  { name := qn, is_module := is_module, attributes := [] }

/-- The declared type of the first attribute called `name`, if there is one. -/
def findAttribute (name : String) : List (String × TypePtr) → Option TypePtr
  | [] => none
  | (n, t) :: rest => if n = name then some t else findAttribute name rest

/-- The names of the attributes declared on a class, by slot index. -/
def ClassType.attributeNames (cls : ClassType) : List String :=
  cls.attributes.map Prod.fst

/-- A reconstruction method. Modelled from the spec: running it on the stack
`[instance, payload]` gives the instance as mutated by the method, or the
failure the method raises. -/
structure Function where
  run : Object → IValue → Except Error Object

/-- A class of the custom class registry: its name and its methods. -/
structure CustomClass where
  name : String
  findMethod : String → Option Function

/-- What `readArchive` uses and this file does not define: the textual rendering
of a value (`operator<<`), the subtype test of two types, the functions of the
mobile compilation unit `mcu`, the custom class registry and the parser of type
expressions. -/
structure Externals where
  render : IValue → String
  isSubtypeOf : TypePtr → TypePtr → Bool
  find_function : QualifiedName → Option Function
  getCustomClass : String → Option CustomClass
  parseType : String → Except Error (Option TypePtr)

/-- Modelled from the spec: `ClassType::addOrCheckAttribute(name, ty)` (declared
outside this file): declares `(name, ty)` when `name` is not declared yet,
otherwise checks `ty` against the declared type; a mismatch is an attribute
conflict. -/
def ClassType.addOrCheckAttribute (env : Externals) (cls : ClassType)
    (name : String) (ty : TypePtr) : Except Error ClassType :=
  match findAttribute name cls.attributes with
  | none => .ok { cls with attributes := cls.attributes ++ [(name, ty)] }
  | some atype =>
    if env.isSubtypeOf ty atype then .ok cls else .error .AttributeConflict

/-! ## The compilation unit and the type resolver -/

/-- The type registry `compilation_unit_`: the registered classes; a class
handle is a position in this list. -/
structure CompilationUnit where
  classes_ : List ClassType
  deriving DecidableEq, Repr

/-- Position of the first class called `qn`. -/
def findClass (qn : QualifiedName) : List ClassType → Option Nat
  | [] => none
  | c :: cs => if c.name = qn then some 0 else (findClass qn cs).map (· + 1)

/-- Modelled from the spec: `CompilationUnit::get_class(qn)` (declared outside
this file): the handle registered under `qn`, or none (`nullptr`). -/
def CompilationUnit.get_class (cu : CompilationUnit) (qn : QualifiedName) : Option Nat :=
  findClass qn cu.classes_

/-- Modelled from the spec: `CompilationUnit::register_type(type)` (declared
outside this file): the class is added to the registry. -/
def CompilationUnit.register_type (cu : CompilationUnit) (cls : ClassType) : CompilationUnit :=
  { classes_ := cu.classes_ ++ [cls] }

/-- The class a handle points to. -/
def CompilationUnit.getClass (cu : CompilationUnit) (slot : Nat) : Option ClassType :=
  cu.classes_[slot]?

/-- The registry after the class at `slot` has been mutated into `cls`. -/
def CompilationUnit.setClass (cu : CompilationUnit) (slot : Nat) (cls : ClassType) :
    CompilationUnit :=
  { classes_ := cu.classes_.set slot cls }

/-- The `type_resolver` closure of `readArchive` (lines 83-99): the resolved
type (none is `nullptr`) or the failure of the type parser, and the registry
afterwards. -/
def type_resolver (env : Externals) (cu : CompilationUnit) (qn : QualifiedName) :
    Except Error (Option TypePtr) × CompilationUnit :=
  if torchPrefix.isPrefixOf qn then
    let cu1 :=
      if cu.get_class qn = none then
        cu.register_type (ClassType.create qn true)
      else cu
    (.ok ((cu1.get_class qn).map TypePtr.ClassType), cu1)
  else
    (env.parseType qn.qualifiedName, cu)

/-! ## The object loader -/

/-- The class behind a type handle, `type.type_->expect<at::ClassType>()`: the
cast succeeds on the handle of a class of the compilation unit, which is what
the type resolver hands out for class names; classes of the custom class
registry are only reached by name, through `getCustomClass`. -/
def CompilationUnit.expectClass (cu : CompilationUnit) : TypePtr → Option (Nat × ClassType)
  | .ClassType slot => (cu.getClass slot).map (fun cls => (slot, cls))
  | _ => none

/-- The `find_custom_class_with_setstate` closure (lines 106-112). -/
def find_custom_class_with_setstate (env : Externals) (qn : QualifiedName) :
    Option CustomClass :=
  match env.getCustomClass qn.qualifiedName with
  | some custom_class_type =>
    if (custom_class_type.findMethod "__setstate__").isSome then some custom_class_type
    else none
  | none => none

/-- The loop of the generic fallback (lines 129-135): `i` is the loop index,
the list is what the iterator `it` has not visited yet; gives the object (or
the failure) and the class as mutated up to that point. -/
def setAttributes (env : Externals) :
    Nat → List (IValue × IValue) → ClassType → Object → Except Error Object × ClassType
  | _, [], cls, obj => (.ok obj, cls)
  | i, (key, value) :: it, cls, obj =>
    match cls.addOrCheckAttribute env (env.render key) key.type with
    | .error e => (.error e, cls)
    | .ok cls1 => setAttributes env (i + 1) it cls1 (obj.setSlot i value)

/-- The generic fallback (lines 125-136) on the class `cls` at handle `slot`. -/
def genericFallback (env : Externals) (cu : CompilationUnit) (type : TypePtr)
    (slot : Nat) (cls : ClassType) (input : IValue) : Except Error Object × CompilationUnit :=
  match input.toGenericDict with
  | .error e => (.error e, cu)
  | .ok dict =>
    let ndict := dict.length
    let obj := Object.create type ndict
    let r := setAttributes env 0 dict cls obj
    (r.1, cu.setClass slot r.2)

/-- The `obj_loader` closure of `readArchive` (lines 101-138): the
reconstructed object (or the failure) and the registry afterwards. -/
def obj_loader (env : Externals) (cu : CompilationUnit) (type : TypePtr) (input : IValue) :
    Except Error Object × CompilationUnit :=
  match cu.expectClass type with
  | none => (.error .ExpectedClassType, cu)
  | some (slot, cls) =>
    let qn := cls.name
    let method_name := qn.child "__setstate__"
    match env.find_function method_name with
    | some setstate =>
      let obj := Object.create type 0
      (setstate.run obj input, cu)
    | none =>
      match find_custom_class_with_setstate env qn with
      | some custom_class_type =>
        let obj := Object.create (.CustomClassType custom_class_type.name) 1
        match custom_class_type.findMethod "__setstate__" with
        | some method => (method.run obj input, cu)
        | none => (.error (.MethodDispatchFailure "__setstate__"), cu)
      | none => genericFallback env cu type slot cls input

/-- Reconstruction requests served in order against one registry, as the
value-graph parser issues them; stops at the first failure. -/
def loadObjects (env : Externals) :
    CompilationUnit → List (TypePtr × IValue) → Except Error (List Object) × CompilationUnit
  | cu, [] => (.ok [], cu)
  | cu, (type, input) :: rest =>
    match obj_loader env cu type input with
    | (.error e, cu1) => (.error e, cu1)
    | (.ok obj, cu1) =>
      match loadObjects env cu1 rest with
      | (.error e, cu2) => (.error e, cu2)
      | (.ok objs, cu2) => (.ok (obj :: objs), cu2)

/-! ## Loading the parameters of a module -/

/-- What a failing step throws: a `std::exception` with its `what()` message,
or anything else, which carries no message. -/
inductive Thrown where
  | exception (what : String)
  | other
  deriving DecidableEq, Repr

/-- A notification received by the module observer. -/
inductive ObserverEvent where
  | onEnterLoadModel
  | onExitLoadModel (name : String)
  | onFailLoadModel (msg : String)
  deriving DecidableEq, Repr

/-- A tensor, identified by the record that holds its storage. -/
structure Tensor where
  record : String
  deriving DecidableEq, Repr

/-- The opened container (`PyTorchStreamReader`): its named records. -/
structure PyTorchStreamReader where
  records : List (String × List Byte)
  deriving DecidableEq, Repr

/-- Modelled from the spec: `PyTorchStreamReader::getRecord(name)` (declared
outside this file): the bytes of the record and their count, a failure when no
record has that name. -/
def PyTorchStreamReader.getRecord (reader_ : PyTorchStreamReader) (name : String) :
    Except Thrown (List Byte × Nat) :=
  match reader_.records.lookup name with
  | some bytes => .ok (bytes, bytes.length)
  | none => .error (.exception ("record not found: " ++ name))

/-- A mobile module: its root object. -/
structure Module where
  object_ : Object

/-- Modelled from the spec: `IValue::toObject` (declared outside this file):
the object a value holds, a failure for any other value. -/
def IValue.toObject : IValue → Except Thrown torch.jit.Object
  | .Object t slots => .ok { type := t, slots := slots }
  | _ => .error (.exception "expected an object")

/-- What `_load_mobile_data` uses and this file does not define: opening the
container over a read adapter, the value-graph parser run on the bytes the
sequential reader delivers (with the three hooks of `readArchive` installed),
the declared name of a module and the extraction of its named parameters. -/
structure Runtime (Adapter : Type) where
  openContainer : Adapter → Except Thrown PyTorchStreamReader
  parse_ivalue : PyTorchStreamReader → List Byte → Except Thrown IValue
  name : Module → String
  named_parameters : Module → Except Thrown (List (String × Tensor))

/-- The method `BytecodeDeserializer::readArchive` (lines 59-153): fetches the record
`<archive_name>.pkl` and hands it to the parser. -/
def readArchive {Adapter : Type} (rt : Runtime Adapter) (reader_ : PyTorchStreamReader)
    (archive_name : String) : Except Thrown IValue :=
  let picklename := archive_name ++ ".pkl"
  match reader_.getRecord picklename with
  | .error t => .error t
  | .ok (pickle_ptr, _) => rt.parse_ivalue reader_ pickle_ptr

/-- The method `BytecodeDeserializer::deserialize` (lines 50-57): the archive
`data` is read and its root value must be an object. -/
def deserialize {Adapter : Type} (rt : Runtime Adapter) (reader_ : PyTorchStreamReader) :
    Except Thrown Module :=
  match readArchive rt reader_ "data" with
  | .error t => .error t
  | .ok temp =>
    match temp.toObject with
    | .error t => .error t
    | .ok obj => .ok { object_ := obj }

/-- The body of the `try` block of `_load_mobile_data` (lines 179-186): the
notifications it emits and what it returns or throws. -/
def loadBody {Adapter : Type} (rt : Runtime Adapter) (observer : Bool) (rai : Adapter) :
    List ObserverEvent × Except Thrown (List (String × Tensor)) :=
  match rt.openContainer rai with
  | .error t => ([], .error t)
  | .ok reader =>
    match deserialize rt reader with
    | .error t => ([], .error t)
    | .ok result =>
      let name := rt.name result
      let exit := if observer then [ObserverEvent.onExitLoadModel name] else []
      (exit, rt.named_parameters result)

/-- The entry point `_load_mobile_data` (lines 171-199); `observer` tells whether a module
observer is installed. Gives every notification the observer receives, in
order, and either the returned parameters or the message of the error raised
by `TORCH_CHECK(false, ...)`. -/
def _load_mobile_data {Adapter : Type} (rt : Runtime Adapter) (observer : Bool) (rai : Adapter) :
    List ObserverEvent × Except String (List (String × Tensor)) :=
  let enter := if observer then [ObserverEvent.onEnterLoadModel] else []
  match loadBody rt observer rai with
  | (events, .ok params) => (enter ++ events, .ok params)
  | (events, .error (.exception what)) =>
    let fail :=
      if observer then
        [ObserverEvent.onFailLoadModel ("Error occured during loading model: " ++ what)]
      else []
    (enter ++ events ++ fail, .error what)
  | (events, .error .other) =>
    let fail := if observer then [ObserverEvent.onFailLoadModel "unknown exception"] else []
    (enter ++ events ++ fail, .error "unknown exception")

/-! ## Conditions and example inputs used in the statements -/

/-- Names declared on a class that had the names `names` once the names `keys`
have been added in order, each only when it is new. -/
def declareNames : List String → List String → List String
  | names, [] => names
  | names, k :: ks => declareNames (if k ∈ names then names else names ++ [k]) ks

/-- No class of the registry has a `__setstate__`, neither in the mobile
compilation unit nor in the custom class registry: every reconstruction takes
the generic fallback. -/
def NoSetstate (env : Externals) (cu : CompilationUnit) : Prop :=
  ∀ slot cls, cu.getClass slot = some cls →
    env.find_function (cls.name.child "__setstate__") = none ∧
    find_custom_class_with_setstate env cls.name = none

/-- Every class of the registry either has no attribute yet or has exactly the
attribute names `schema` gives for its handle, in that order. -/
def FollowsSchema (schema : Nat → List String) (cu : CompilationUnit) : Prop :=
  ∀ slot cls, cu.getClass slot = some cls →
    cls.attributeNames = [] ∨ cls.attributeNames = schema slot

/-- Every request is a keyed mapping for a class handle whose key names, in
iteration order, are the names `schema` gives for that handle, all distinct. -/
def RequestsFollowSchema (env : Externals) (schema : Nat → List String)
    (reqs : List (TypePtr × IValue)) : Prop :=
  ∀ slot entries, (TypePtr.ClassType slot, IValue.GenericDict entries) ∈ reqs →
    entries.map (fun e => env.render e.1) = schema slot ∧ (schema slot).Nodup

/-- A rendering for the examples: a string key is rendered as its characters. -/
def exampleRender : IValue → String
  | .String s => s
  | _ => "?"

/-- An environment for the examples: two types pass the subtype test when they
are equal, there is no `__setstate__` anywhere and no type expression parses. -/
def exampleEnv : Externals :=
  { render := exampleRender
    isSubtypeOf := fun a b => decide (a = b)
    find_function := fun _ => none
    getCustomClass := fun _ => none
    parseType := fun _ => .error .TypeResolutionFailure }

/-- A rendering for the examples with mixed keys: a string key is rendered as
its characters, an integer key in decimal. -/
def exampleRenderKeys : IValue → String
  | .String s => s
  | .Int i => toString i
  | _ => "?"

/-- The example environment with the rendering of mixed keys. -/
def exampleEnvKeys : Externals := { exampleEnv with render := exampleRenderKeys }

/-- The class name `__torch__.M`. -/
def exampleName : QualifiedName := { atoms := ["__torch__", "M"] }

/-- A registry holding the class `__torch__.M` as the resolver creates it. -/
def exampleUnit : CompilationUnit := { classes_ := [ClassType.create exampleName true] }

/-- A reconstruction method that stores the payload in the only slot. -/
def exampleSetstate : Function :=
  { run := fun obj input => .ok { obj with slots := [input] } }

/-- The example environment with `__torch__.M.__setstate__` in the mobile
compilation unit. -/
def exampleEnvSetstate : Externals :=
  { exampleEnv with
    find_function := fun qn =>
      if qn = exampleName.child "__setstate__" then some exampleSetstate else none }

/-- A runtime for the examples: the container holds an empty `data.pkl`, the
parser yields an object of class `__torch__.M` with no slot, and the extraction
of the named parameters throws a `std::exception` with the message `boom`. -/
def exampleRuntimeParams : Runtime Unit :=
  { openContainer := fun _ => .ok { records := [("data.pkl", [])] }
    parse_ivalue := fun _ _ => .ok (.Object (.ClassType 0) [])
    name := fun _ => "__torch__.M"
    named_parameters := fun _ => .error (.exception "boom") }

theorem size_sub_eq {a b : Nat} (hb : b ≤ a) (ha : a < SIZE_RANGE) : size_sub a b = a - b := by
  unfold size_sub
  have h : a + SIZE_RANGE - b = (a - b) + SIZE_RANGE := by omega
  rw [h, Nat.add_mod_right]
  exact Nat.mod_eq_of_lt (by omega)

theorem size_add_eq {a b : Nat} (h : a + b < SIZE_RANGE) : size_add a b = a + b := by
  unfold size_add
  exact Nat.mod_eq_of_lt h

/-- One call of the reader at an in-range position, in unbounded arithmetic. -/
theorem reader_step (data : List Byte) (pos len : Nat)
    (hn : data.length < SIZE_RANGE) (hpos : pos ≤ data.length) :
    reader data data.length pos len =
      { buffer := (data.drop pos).take (min len (data.length - pos))
        returned := min len (data.length - pos)
        bytes_read := pos + min len (data.length - pos) } := by
  unfold reader
  by_cases h : pos ≥ data.length
  · have hp : pos = data.length := by omega
    subst hp
    simp
  · rw [if_neg h]
    have hs : size_sub data.length pos = data.length - pos := size_sub_eq hpos hn
    have ha : size_add pos (min len (data.length - pos)) = pos + min len (data.length - pos) :=
      size_add_eq (by omega)
    simp only [hs, memcpy, Nat.min_comm (data.length - pos) len, ha]

theorem readPosition_eq (data : List Byte) (hn : data.length < SIZE_RANGE) :
    ∀ (lens : List Nat) (pos : Nat), pos ≤ data.length →
      readPosition data data.length pos lens = min data.length (pos + lens.sum) := by
  intro lens
  induction lens with
  | nil => intro pos hpos; simp [readPosition]; omega
  | cons len lens ih =>
    intro pos hpos
    simp only [readPosition, reader_step data pos len hn hpos, List.sum_cons]
    rw [ih _ (by omega)]
    omega

theorem readCalls_append (data : List Byte) (n : Nat) :
    ∀ (pre post : List Nat) (pos : Nat),
      readCalls data n pos (pre ++ post) =
        readCalls data n pos pre ++ readCalls data n (readPosition data n pos pre) post := by
  intro pre
  induction pre with
  | nil => intro post pos; simp [readCalls, readPosition]
  | cons len pre ih => intro post pos; simp [readCalls, readPosition, ih]

theorem readCalls_length (data : List Byte) (n : Nat) :
    ∀ (lens : List Nat) (pos : Nat), (readCalls data n pos lens).length = lens.length := by
  intro lens
  induction lens with
  | nil => intro pos; simp [readCalls]
  | cons len lens ih => intro pos; simp [readCalls, ih]

theorem readCalls_returned_sum (data : List Byte) (hn : data.length < SIZE_RANGE) :
    ∀ (lens : List Nat) (pos : Nat), pos ≤ data.length →
      pos + ((readCalls data data.length pos lens).map ReadResult.returned).sum =
        readPosition data data.length pos lens := by
  intro lens
  induction lens with
  | nil => intro pos _; simp [readCalls, readPosition]
  | cons len lens ih =>
    intro pos hpos
    simp only [readCalls, readPosition, List.map_cons, List.sum_cons]
    rw [← ih _ (by rw [reader_step data pos len hn hpos]; simp only; omega)]
    rw [reader_step data pos len hn hpos]
    simp only
    omega

theorem readCalls_buffers (data : List Byte) (hn : data.length < SIZE_RANGE) :
    ∀ (lens : List Nat) (pos : Nat), pos ≤ data.length →
      ((readCalls data data.length pos lens).map ReadResult.buffer).flatten =
        (data.drop pos).take (min (data.length - pos) lens.sum) := by
  intro lens
  induction lens with
  | nil => intro pos _; simp [readCalls]
  | cons len lens ih =>
    intro pos hpos
    simp only [readCalls, List.map_cons, List.flatten_cons, List.sum_cons]
    rw [reader_step data pos len hn hpos]
    simp only
    rw [ih _ (by omega)]
    have hsplit : min (data.length - pos) (len + lens.sum) =
        min len (data.length - pos) +
          min (data.length - (pos + min len (data.length - pos))) lens.sum := by omega
    rw [hsplit, List.take_add, List.drop_drop]

/-! ## Properties of the sequential reader -/

/-- C10: on a record of `n` bytes, whatever lengths are requested, each call of
the reader returns `min len (n - position)` bytes, which are the next bytes of
the record; the position is the number of bytes returned so far and never
exceeds `n`, the subtraction `n - position` does not wrap around, all chunks
together are the first `min n (sum of the lengths)` bytes of the record, and a
call made once `n` bytes have been returned gives nothing and changes
nothing. -/
theorem reader_sequential (data : List Byte) (lens : List Nat)
    (hn : data.length < SIZE_RANGE) :
    (∀ (pre post : List Nat) (len pos : Nat), lens = pre ++ len :: post →
      pos = readPosition data data.length 0 pre →
      pos = ((readCalls data data.length 0 pre).map ReadResult.returned).sum ∧
      pos ≤ data.length ∧
      size_sub data.length pos = data.length - pos ∧
      (readCalls data data.length 0 lens)[pre.length]? =
        some (reader data data.length pos len) ∧
      reader data data.length pos len =
        { buffer := (data.drop pos).take (min len (data.length - pos))
          returned := min len (data.length - pos)
          bytes_read := pos + min len (data.length - pos) } ∧
      (reader data data.length pos len).buffer.length =
        (reader data data.length pos len).returned ∧
      (reader data data.length pos len).bytes_read ≤ data.length ∧
      (pos = data.length →
        reader data data.length pos len = { buffer := [], returned := 0, bytes_read := pos })) ∧
    ((readCalls data data.length 0 lens).map ReadResult.buffer).flatten =
      data.take (min data.length lens.sum) ∧
    readPosition data data.length 0 lens = min data.length lens.sum := by
  refine ⟨?_, ?_, ?_⟩
  · intro pre post len pos hl hpos
    have hp : pos = min data.length pre.sum := by
      rw [hpos, readPosition_eq data hn pre 0 (Nat.zero_le _)]; simp
    have hle : pos ≤ data.length := by omega
    have hstep := reader_step data pos len hn hle
    refine ⟨?_, hle, size_sub_eq hle hn, ?_, hstep, ?_, ?_, ?_⟩
    · have h := readCalls_returned_sum data hn pre 0 (Nat.zero_le _)
      rw [hpos, ← h]; simp
    · rw [hl, readCalls_append, List.getElem?_append_right (by rw [readCalls_length])]
      simp [readCalls_length, readCalls, hpos]
    · rw [hstep]; simp
    · rw [hstep]; simp only; omega
    · intro he
      rw [hstep, he]; simp
  · have h := readCalls_buffers data hn lens 0 (Nat.zero_le _)
    simpa using h
  · rw [readPosition_eq data hn lens 0 (Nat.zero_le _)]; simp

/-- Witness for C10: a record of three bytes read with the requests 2, 5, 1. -/
theorem reader_sequential_witness :
    ([1, 2, 3] : List Byte).length < SIZE_RANGE ∧
    ((readCalls [1, 2, 3] 3 0 [2, 5, 1]).map ReadResult.buffer).flatten =
      ([1, 2, 3] : List Byte).take (min 3 ([2, 5, 1] : List Nat).sum) ∧
    readPosition [1, 2, 3] 3 0 [2, 5, 1] = min 3 ([2, 5, 1] : List Nat).sum :=
  ⟨by decide, (reader_sequential [1, 2, 3] [2, 5, 1] (by decide)).2⟩

/-! ## Properties of the type resolver -/

theorem findClass_some (qn : QualifiedName) :
    ∀ (l : List ClassType) (i : Nat), findClass qn l = some i →
      ∃ c, l[i]? = some c ∧ c.name = qn := by
  intro l
  induction l with
  | nil => intro i h; simp [findClass] at h
  | cons c cs ih =>
    intro i h
    by_cases hc : c.name = qn
    · simp [findClass, hc] at h
      subst h
      exact ⟨c, by simp, hc⟩
    · simp only [findClass, if_neg hc, Option.map_eq_some'] at h
      obtain ⟨j, hj, rfl⟩ := h
      obtain ⟨d, hd, hn⟩ := ih j hj
      exact ⟨d, by simpa using hd, hn⟩

theorem findClass_none (qn : QualifiedName) :
    ∀ (l : List ClassType), findClass qn l = none ↔ qn ∉ l.map ClassType.name := by
  intro l
  induction l with
  | nil => simp [findClass]
  | cons c cs ih =>
    by_cases hc : c.name = qn
    · simp [findClass, hc]
    · have hc2 : ¬ qn = c.name := fun h => hc h.symm
      simp [findClass, hc, hc2, ih]

theorem findClass_append_new (qn : QualifiedName) (cls : ClassType) (hname : cls.name = qn) :
    ∀ (l : List ClassType), findClass qn l = none →
      findClass qn (l ++ [cls]) = some l.length := by
  intro l
  induction l with
  | nil => intro _; simp [findClass, hname]
  | cons c cs ih =>
    intro h
    by_cases hc : c.name = qn
    · simp [findClass, hc] at h
    · simp only [findClass, if_neg hc, Option.map_eq_none'] at h
      simp [findClass, hc, ih h]

/-- C7: for a name under `__torch__` the resolver returns the handle of a class
registered under that name; an absent name adds exactly one class (module
flag set, no attribute) at the end of the registry, a present name leaves the
registry as it is; resolving again gives the identical handle and changes
nothing, and a registry with at most one class per name stays so. For any other
name the registry is unchanged and the result is that of the type parser. -/
theorem type_resolver_registry (env : Externals) (cu : CompilationUnit) (qn : QualifiedName) :
    (torchPrefix.isPrefixOf qn = true →
      ∃ slot cls,
        (type_resolver env cu qn).1 = .ok (some (.ClassType slot)) ∧
        (type_resolver env cu qn).2.getClass slot = some cls ∧ cls.name = qn ∧
        (type_resolver env cu qn).2.get_class qn = some slot ∧
        (cu.get_class qn = none →
          (type_resolver env cu qn).2.classes_ =
            cu.classes_ ++ [{ name := qn, is_module := true, attributes := [] }] ∧
          slot = cu.classes_.length) ∧
        (cu.get_class qn ≠ none →
          (type_resolver env cu qn).2 = cu ∧ cu.get_class qn = some slot) ∧
        type_resolver env (type_resolver env cu qn).2 qn =
          (.ok (some (.ClassType slot)), (type_resolver env cu qn).2) ∧
        ((cu.classes_.map ClassType.name).Nodup →
          ((type_resolver env cu qn).2.classes_.map ClassType.name).Nodup)) ∧
    (torchPrefix.isPrefixOf qn = false →
      type_resolver env cu qn = (env.parseType qn.qualifiedName, cu)) := by
  constructor
  · intro hp
    by_cases habs : cu.get_class qn = none
    · have habs1 : findClass qn cu.classes_ = none := habs
      have hnew : findClass qn (cu.classes_ ++ [ClassType.create qn true]) =
          some cu.classes_.length :=
        findClass_append_new qn _ rfl _ habs1
      have hres : type_resolver env cu qn =
          (.ok (some (.ClassType cu.classes_.length)),
            { classes_ := cu.classes_ ++ [ClassType.create qn true] }) := by
        simp [type_resolver, hp, CompilationUnit.get_class, habs1,
          CompilationUnit.register_type, hnew]
      have hres2 : type_resolver env { classes_ := cu.classes_ ++ [ClassType.create qn true] } qn =
          (.ok (some (.ClassType cu.classes_.length)),
            { classes_ := cu.classes_ ++ [ClassType.create qn true] }) := by
        simp [type_resolver, hp, CompilationUnit.get_class, hnew]
      rw [hres]
      refine ⟨cu.classes_.length, ClassType.create qn true, rfl, ?_, rfl, hnew, ?_, ?_, hres2, ?_⟩
      · simp [CompilationUnit.getClass]
      · intro _
        exact ⟨rfl, rfl⟩
      · intro h; exact absurd habs h
      · intro hnd
        have hnot : qn ∉ cu.classes_.map ClassType.name := (findClass_none qn _).1 habs1
        simp only [List.map_append, List.map_cons, List.map_nil, ClassType.create]
        rw [List.nodup_append]
        refine ⟨hnd, by simp, ?_⟩
        intro a ha hb
        simp at hb
        subst hb
        exact hnot ha
    · obtain ⟨slot, hslot⟩ := Option.ne_none_iff_exists'.1 habs
      have hslot1 : findClass qn cu.classes_ = some slot := hslot
      obtain ⟨cls, hcls, hname⟩ := findClass_some qn _ _ hslot1
      have hres : type_resolver env cu qn = (.ok (some (.ClassType slot)), cu) := by
        simp [type_resolver, hp, CompilationUnit.get_class, hslot1]
      rw [hres]
      refine ⟨slot, cls, rfl, hcls, hname, hslot, ?_, ?_, hres, ?_⟩
      · intro h; exact absurd h habs
      · intro _; exact ⟨rfl, hslot⟩
      · intro hnd; exact hnd
  · intro hp
    simp [type_resolver, hp]

/-- Witness for C7: `__torch__.M` resolved in an empty registry. -/
theorem type_resolver_registry_witness :
    torchPrefix.isPrefixOf { atoms := ["__torch__", "M"] } = true ∧
    ∃ slot cls,
      (type_resolver
        { render := fun _ => "", isSubtypeOf := fun _ _ => true, find_function := fun _ => none,
          getCustomClass := fun _ => none, parseType := fun _ => .ok none }
        { classes_ := [] } { atoms := ["__torch__", "M"] }).1 = .ok (some (.ClassType slot)) ∧
      (type_resolver
        { render := fun _ => "", isSubtypeOf := fun _ _ => true, find_function := fun _ => none,
          getCustomClass := fun _ => none, parseType := fun _ => .ok none }
        { classes_ := [] } { atoms := ["__torch__", "M"] }).2.getClass slot = some cls ∧
      cls.name = { atoms := ["__torch__", "M"] } :=
  ⟨by decide,
    match (type_resolver_registry
      { render := fun _ => "", isSubtypeOf := fun _ _ => true, find_function := fun _ => none,
        getCustomClass := fun _ => none, parseType := fun _ => .ok none }
      { classes_ := [] } { atoms := ["__torch__", "M"] }).1 (by decide) with
    | ⟨slot, cls, h1, h2, h3, _⟩ => ⟨slot, cls, h1, h2, h3⟩⟩

/-! ## Properties of the object loader -/

/-- C1: the loader picks one strategy, in priority order. With a function
`<class name>.__setstate__` in the mobile compilation unit it runs that function
on a fresh instance of the given type with zero slots and the payload, returns
what the run gives and leaves the registry untouched, for every payload. Only
without such a function does it consult the custom class registry (instance of
the custom type with exactly one slot, external `__setstate__` run on it and
the payload, registry untouched), and only when neither applies does it take
the generic fallback. -/
theorem obj_loader_strategy (env : Externals) (cu : CompilationUnit) (slot : Nat)
    (cls : ClassType) (input : IValue) (hcls : cu.getClass slot = some cls) :
    (cls.name.child "__setstate__").atoms = cls.name.atoms ++ ["__setstate__"] ∧
    (∀ setstate, env.find_function (cls.name.child "__setstate__") = some setstate →
      obj_loader env cu (.ClassType slot) input =
        (setstate.run { type := .ClassType slot, slots := [] } input, cu)) ∧
    (env.find_function (cls.name.child "__setstate__") = none →
      ∀ custom method, env.getCustomClass cls.name.qualifiedName = some custom →
        custom.findMethod "__setstate__" = some method →
        obj_loader env cu (.ClassType slot) input =
          (method.run { type := .CustomClassType custom.name, slots := [IValue.None] } input,
            cu)) ∧
    (env.find_function (cls.name.child "__setstate__") = none →
      (env.getCustomClass cls.name.qualifiedName = none ∨
        ∃ custom, env.getCustomClass cls.name.qualifiedName = some custom ∧
          custom.findMethod "__setstate__" = none) →
      obj_loader env cu (.ClassType slot) input =
        genericFallback env cu (.ClassType slot) slot cls input) := by
  have hexp : cu.expectClass (.ClassType slot) = some (slot, cls) := by
    simp [CompilationUnit.expectClass, hcls]
  refine ⟨rfl, ?_, ?_, ?_⟩
  · intro setstate hf
    simp [obj_loader, hexp, hf, Object.create]
  · intro hf custom method hc hm
    simp [obj_loader, hexp, hf, find_custom_class_with_setstate, hc, hm, Object.create]
  · intro hf hc
    rcases hc with hc | ⟨custom, hc, hm⟩
    · simp [obj_loader, hexp, hf, find_custom_class_with_setstate, hc]
    · simp [obj_loader, hexp, hf, find_custom_class_with_setstate, hc, hm]

/-- C6: without a `__setstate__` in the mobile compilation unit and in the
custom class registry, a payload that is not a keyed mapping makes the loader
fail with a payload shape mismatch: no object is returned and the registry,
hence every declared attribute, is unchanged. -/
theorem obj_loader_non_mapping (env : Externals) (cu : CompilationUnit) (slot : Nat)
    (cls : ClassType) (input : IValue) (hcls : cu.getClass slot = some cls)
    (hfun : env.find_function (cls.name.child "__setstate__") = none)
    (hcustom : find_custom_class_with_setstate env cls.name = none)
    (hshape : ∀ entries, input ≠ IValue.GenericDict entries) :
    obj_loader env cu (.ClassType slot) input = (.error .PayloadShapeMismatch, cu) ∧
    (∀ obj, (obj_loader env cu (.ClassType slot) input).1 ≠ .ok obj) ∧
    (obj_loader env cu (.ClassType slot) input).2.getClass slot = some cls := by
  have hexp : cu.expectClass (.ClassType slot) = some (slot, cls) := by
    simp [CompilationUnit.expectClass, hcls]
  have hdict : input.toGenericDict = .error .PayloadShapeMismatch := by
    cases input with
    | GenericDict entries => exact absurd rfl (hshape entries)
    | _ => rfl
  have hres : obj_loader env cu (.ClassType slot) input = (.error .PayloadShapeMismatch, cu) := by
    simp [obj_loader, hexp, hfun, hcustom, genericFallback, hdict]
  refine ⟨hres, ?_, ?_⟩
  · intro obj h
    rw [hres] at h
    cases h
  · rw [hres]
    exact hcls

/-- Witness for C1: `__torch__.M` with a `__setstate__` in the mobile compilation
unit and a payload that is a valid mapping. -/
theorem obj_loader_strategy_witness :
    exampleUnit.getClass 0 = some (ClassType.create exampleName true) ∧
    obj_loader exampleEnvSetstate exampleUnit (.ClassType 0)
        (.GenericDict [(.String "x", .Int 1)]) =
      (.ok { type := .ClassType 0, slots := [.GenericDict [(.String "x", .Int 1)]] },
        exampleUnit) :=
  ⟨rfl, (obj_loader_strategy exampleEnvSetstate exampleUnit 0 (ClassType.create exampleName true)
    (.GenericDict [(.String "x", .Int 1)]) rfl).2.1 exampleSetstate rfl⟩

/-- Witness for C6: `__torch__.M` reconstructed from the scalar payload `7`. -/
theorem obj_loader_non_mapping_witness :
    obj_loader exampleEnv exampleUnit (.ClassType 0) (.Int 7) =
      (.error .PayloadShapeMismatch, exampleUnit) :=
  (obj_loader_non_mapping exampleEnv exampleUnit 0 (ClassType.create exampleName true)
    (.Int 7) rfl rfl rfl (by intro entries h; cases h)).1

/-! ## The generic fallback -/

theorem findAttribute_none (name : String) :
    ∀ (attrs : List (String × TypePtr)),
      findAttribute name attrs = none ↔ name ∉ attrs.map Prod.fst := by
  intro attrs
  induction attrs with
  | nil => simp [findAttribute]
  | cons a rest ih =>
    obtain ⟨n, t⟩ := a
    by_cases h : n = name
    · simp [findAttribute, h]
    · have h2 : ¬ name = n := fun e => h e.symm
      simp [findAttribute, h, h2, ih]

/-- What a successful `addOrCheckAttribute` does to the class. -/
theorem addOrCheckAttribute_ok (env : Externals) (cls cls1 : ClassType) (name : String)
    (ty : TypePtr) (h : cls.addOrCheckAttribute env name ty = .ok cls1) :
    cls1.name = cls.name ∧ cls1.is_module = cls.is_module ∧
    ((findAttribute name cls.attributes = none ∧
        cls1.attributes = cls.attributes ++ [(name, ty)]) ∨
      (∃ atype, findAttribute name cls.attributes = some atype ∧
        env.isSubtypeOf ty atype = true ∧ cls1 = cls)) := by
  unfold ClassType.addOrCheckAttribute at h
  cases hf : findAttribute name cls.attributes with
  | none =>
    rw [hf] at h
    simp only [Except.ok.injEq] at h
    subst h
    exact ⟨rfl, rfl, Or.inl ⟨rfl, rfl⟩⟩
  | some atype =>
    rw [hf] at h
    by_cases hs : env.isSubtypeOf ty atype = true
    · simp only [hs, if_true, Except.ok.injEq] at h
      subst h
      exact ⟨rfl, rfl, Or.inr ⟨atype, rfl, hs, rfl⟩⟩
    · simp [hs] at h

theorem take_succ_set {α : Type} (l : List α) (i : Nat) (v : α) (h : i < l.length) :
    (l.set i v).take (i + 1) = l.take i ++ [v] := by
  induction l generalizing i with
  | nil => simp at h
  | cons a rest ih =>
    cases i with
    | zero => simp
    | succ j =>
      simp only [List.set_cons_succ, List.take_succ_cons, List.cons_append, List.cons.injEq,
        true_and]
      exact ih j (by simpa using h)

/-- The slots of the object a successful run of the loop returns. -/
theorem setAttributes_slots (env : Externals) :
    ∀ (it : List (IValue × IValue)) (i : Nat) (cls cls1 : ClassType) (obj obj1 : Object),
      setAttributes env i it cls obj = (.ok obj1, cls1) →
      obj.slots.length = i + it.length →
      obj1.type = obj.type ∧ obj1.slots = obj.slots.take i ++ it.map Prod.snd := by
  intro it
  induction it with
  | nil =>
    intro i cls cls1 obj obj1 h hlen
    simp only [setAttributes, Prod.mk.injEq, Except.ok.injEq] at h
    obtain ⟨rfl, _⟩ := h
    simp only [List.length_nil, Nat.add_zero] at hlen
    simp [← hlen]
  | cons e rest ih =>
    intro i cls cls1 obj obj1 h hlen
    obtain ⟨key, value⟩ := e
    simp only [setAttributes] at h
    cases hadd : cls.addOrCheckAttribute env (env.render key) key.type with
    | error err => rw [hadd] at h; simp at h
    | ok cls2 =>
      rw [hadd] at h
      simp only at h
      simp only [List.length_cons] at hlen
      have hlen2 : (obj.setSlot i value).slots.length = (i + 1) + rest.length := by
        simp [Object.setSlot]; omega
      obtain ⟨ht, hs⟩ := ih (i + 1) cls2 cls1 (obj.setSlot i value) obj1 h hlen2
      refine ⟨ht, ?_⟩
      rw [hs]
      simp only [Object.setSlot]
      rw [take_succ_set obj.slots i value (by omega)]
      simp

/-- The class a successful run of the loop leaves behind. -/
theorem setAttributes_class (env : Externals) :
    ∀ (it : List (IValue × IValue)) (i : Nat) (cls cls1 : ClassType) (obj obj1 : Object),
      setAttributes env i it cls obj = (.ok obj1, cls1) →
      cls1.name = cls.name ∧ cls1.is_module = cls.is_module ∧
      (∃ added, cls1.attributes = cls.attributes ++ added) ∧
      cls1.attributeNames = declareNames cls.attributeNames (it.map (fun e => env.render e.1)) := by
  intro it
  induction it with
  | nil =>
    intro i cls cls1 obj obj1 h
    simp only [setAttributes, Prod.mk.injEq, Except.ok.injEq] at h
    obtain ⟨_, rfl⟩ := h
    exact ⟨rfl, rfl, ⟨[], by simp⟩, rfl⟩
  | cons e rest ih =>
    intro i cls cls1 obj obj1 h
    obtain ⟨key, value⟩ := e
    simp only [setAttributes] at h
    cases hadd : cls.addOrCheckAttribute env (env.render key) key.type with
    | error err => rw [hadd] at h; simp at h
    | ok cls2 =>
      rw [hadd] at h
      simp only at h
      obtain ⟨hn, hm, ⟨added, hadded⟩, hnames⟩ := ih (i + 1) cls2 cls1 (obj.setSlot i value) obj1 h
      obtain ⟨hn2, hm2, hcase⟩ := addOrCheckAttribute_ok env cls cls2 _ _ hadd
      refine ⟨hn.trans hn2, hm.trans hm2, ?_, ?_⟩
      · rcases hcase with ⟨_, hnew⟩ | ⟨atype, _, _, hsame⟩
        · exact ⟨(env.render key, key.type) :: added, by rw [hadded, hnew]; simp⟩
        · exact ⟨added, by rw [hadded, hsame]⟩
      · rw [hnames]
        simp only [List.map_cons, declareNames]
        rcases hcase with ⟨hnone, hnew⟩ | ⟨atype, hsome, _, hsame⟩
        · have hnot : env.render key ∉ cls.attributeNames :=
            (findAttribute_none _ _).1 hnone
          rw [if_neg hnot]
          simp [ClassType.attributeNames, hnew]
        · have hin : env.render key ∈ cls.attributeNames := by
            by_contra hnot
            have := (findAttribute_none _ _).2 hnot
            rw [hsome] at this
            cases this
          rw [if_pos hin, hsame]

theorem getClass_setClass_self (cu : CompilationUnit) (slot : Nat) (cls cls1 : ClassType)
    (h : cu.getClass slot = some cls) : (cu.setClass slot cls1).getClass slot = some cls1 := by
  simp only [CompilationUnit.getClass, CompilationUnit.setClass] at h ⊢
  have hlt : slot < cu.classes_.length := by
    by_contra hge
    rw [List.getElem?_eq_none (by omega)] at h
    cases h
  simp [List.getElem?_set, hlt]

theorem getClass_setClass_other (cu : CompilationUnit) (slot other : Nat) (cls1 : ClassType)
    (h : other ≠ slot) : (cu.setClass slot cls1).getClass other = cu.getClass other := by
  simp only [CompilationUnit.getClass, CompilationUnit.setClass]
  simp [List.getElem?_set, Ne.symm h]

/-- The generic fallback on a keyed mapping, once the loop is known to succeed. -/
theorem obj_loader_fallback_eq (env : Externals) (cu : CompilationUnit) (slot : Nat)
    (cls : ClassType) (entries : List (IValue × IValue))
    (hcls : cu.getClass slot = some cls)
    (hfun : env.find_function (cls.name.child "__setstate__") = none)
    (hcustom : find_custom_class_with_setstate env cls.name = none) :
    obj_loader env cu (.ClassType slot) (.GenericDict entries) =
      ((setAttributes env 0 entries cls (Object.create (.ClassType slot) entries.length)).1,
        cu.setClass slot
          (setAttributes env 0 entries cls (Object.create (.ClassType slot) entries.length)).2) := by
  have hexp : cu.expectClass (.ClassType slot) = some (slot, cls) := by
    simp [CompilationUnit.expectClass, hcls]
  simp [obj_loader, hexp, hfun, hcustom, genericFallback, IValue.toGenericDict]

/-- C2: evaluation of the loader on the mapping `{"a": 1, 7: 2, "7": 3}` for
the class `__torch__.M` without attributes and without any `__setstate__`. All
three values are integers, so the declarations by name and value type do not
conflict; the keys `7` and `"7"` have the same rendering and different types,
an integer and a string. The loader declares `a` and `7` with the types of
their keys and then fails with an attribute conflict on the third entry: no
object with three slots is returned. -/
theorem obj_loader_key_conflict :
    (obj_loader exampleEnvKeys exampleUnit (.ClassType 0)
        (.GenericDict [(.String "a", .Int 1), (.Int 7, .Int 2), (.String "7", .Int 3)])).1 =
      .error .AttributeConflict ∧
    (obj_loader exampleEnvKeys exampleUnit (.ClassType 0)
        (.GenericDict [(.String "a", .Int 1), (.Int 7, .Int 2), (.String "7", .Int 3)])).2 =
      { classes_ :=
          [{ name := exampleName, is_module := true,
             attributes := [("a", TypePtr.StringType), ("7", TypePtr.IntType)] }] } ∧
    exampleEnvKeys.find_function (exampleName.child "__setstate__") = none ∧
    find_custom_class_with_setstate exampleEnvKeys exampleName = none ∧
    exampleEnvKeys.render (IValue.Int 7) = exampleEnvKeys.render (IValue.String "7") ∧
    exampleEnvKeys.isSubtypeOf (IValue.Int 3).type (IValue.Int 2).type = true ∧
    exampleEnvKeys.isSubtypeOf (IValue.String "7").type (IValue.Int 7).type = false :=
  ⟨rfl, by decide, rfl, rfl, by decide, rfl, rfl⟩

/-- C3: evaluation of the loader on `{"weight": <tensor data/0>}` for the class
`__torch__.M` without attributes: the object holds the tensor in slot 0, and
the attribute `weight` is declared with the type of the key (a string), while
the type of the value is the tensor type. -/
theorem obj_loader_declares_key_type :
    (obj_loader exampleEnv exampleUnit (.ClassType 0)
        (.GenericDict [(.String "weight", .Tensor "data/0")])).1 =
      .ok { type := .ClassType 0, slots := [.Tensor "data/0"] } ∧
    (obj_loader exampleEnv exampleUnit (.ClassType 0)
        (.GenericDict [(.String "weight", .Tensor "data/0")])).2 =
      { classes_ :=
          [{ name := exampleName, is_module := true,
             attributes := [("weight", TypePtr.StringType)] }] } ∧
    (IValue.Tensor "data/0").type = TypePtr.TensorType ∧
    (IValue.String "weight").type = TypePtr.StringType :=
  ⟨rfl, by decide, rfl, rfl⟩

/-- C4: evaluation of two reconstructions of `__torch__.M` in sequence, the
first from `{"x": 1}` and the second from `{"x": <tensor data/0>}`: both
succeed although an integer and a tensor fail the subtype test, and `x` stays
declared with the type of its key. -/
theorem loadObjects_value_collision :
    (loadObjects exampleEnv exampleUnit
        [(.ClassType 0, .GenericDict [(.String "x", .Int 1)]),
         (.ClassType 0, .GenericDict [(.String "x", .Tensor "data/0")])]).1 =
      .ok [{ type := .ClassType 0, slots := [.Int 1] },
           { type := .ClassType 0, slots := [.Tensor "data/0"] }] ∧
    (loadObjects exampleEnv exampleUnit
        [(.ClassType 0, .GenericDict [(.String "x", .Int 1)]),
         (.ClassType 0, .GenericDict [(.String "x", .Tensor "data/0")])]).2 =
      { classes_ :=
          [{ name := exampleName, is_module := true,
             attributes := [("x", TypePtr.StringType)] }] } ∧
    exampleEnv.isSubtypeOf (IValue.Tensor "data/0").type (IValue.Int 1).type = false :=
  ⟨rfl, by decide, rfl⟩

/-! ## Properties of `_load_mobile_data` -/

/-- C8: evaluation of a load with an observer installed in which the container
opens, `data.pkl` parses to an object and the extraction of the named
parameters throws: the observer receives the enter notification, then the exit
notification, then the fail notification, and the error is raised to the
caller. -/
theorem load_exit_then_fail :
    (_load_mobile_data exampleRuntimeParams true ()).1 =
      [ObserverEvent.onEnterLoadModel,
       ObserverEvent.onExitLoadModel "__torch__.M",
       ObserverEvent.onFailLoadModel "Error occured during loading model: boom"] ∧
    (_load_mobile_data exampleRuntimeParams true ()).2 = .error "boom" :=
  ⟨by decide, rfl⟩

theorem declareNames_new :
    ∀ (ks names : List String), (names ++ ks).Nodup → declareNames names ks = names ++ ks := by
  intro ks
  induction ks with
  | nil => intro names _; simp [declareNames]
  | cons k ks ih =>
    intro names h
    have hk : k ∉ names := by
      intro hin
      have := List.nodup_append.1 h
      exact this.2.2 hin (List.mem_cons_self _ _)
    simp only [declareNames, if_neg hk]
    rw [ih (names ++ [k]) (by simpa using h)]
    simp

theorem declareNames_known :
    ∀ (ks names : List String), (∀ k ∈ ks, k ∈ names) → declareNames names ks = names := by
  intro ks
  induction ks with
  | nil => intro names _; rfl
  | cons k ks ih =>
    intro names h
    have hk : k ∈ names := h k (List.mem_cons_self _ _)
    simp only [declareNames, if_pos hk]
    exact ih names (fun x hx => h x (List.mem_cons_of_mem _ hx))

/-- Names on a class that follows the schema, after a payload with the names of
the schema has been declared on it. -/
theorem declareNames_schema (names ks : List String) (hnd : ks.Nodup)
    (h : names = [] ∨ names = ks) : declareNames names ks = ks := by
  rcases h with rfl | rfl
  · simpa using declareNames_new ks [] (by simpa using hnd)
  · exact declareNames_known names names (fun _ hk => hk)

/-- What a successful call of the loader did when no `__setstate__` exists. -/
theorem obj_loader_ok_fallback (env : Externals) (cu cu1 : CompilationUnit) (type : TypePtr)
    (input : IValue) (obj : Object) (hno : NoSetstate env cu)
    (h : obj_loader env cu type input = (.ok obj, cu1)) :
    ∃ slot cls entries cls1,
      type = .ClassType slot ∧ input = .GenericDict entries ∧
      cu.getClass slot = some cls ∧
      setAttributes env 0 entries cls (Object.create (.ClassType slot) entries.length) =
        (.ok obj, cls1) ∧
      cu1 = cu.setClass slot cls1 := by
  cases type with
  | ClassType slot =>
    cases hcls : cu.getClass slot with
    | none => simp [obj_loader, CompilationUnit.expectClass, hcls] at h
    | some cls =>
      obtain ⟨hfun, hcustom⟩ := hno slot cls hcls
      cases input with
      | GenericDict entries =>
        rw [obj_loader_fallback_eq env cu slot cls entries hcls hfun hcustom] at h
        simp only [Prod.mk.injEq] at h
        refine ⟨slot, cls, entries, _, rfl, rfl, hcls, ?_, h.2.symm⟩
        exact Prod.ext h.1 rfl
      | _ =>
        simp [obj_loader, CompilationUnit.expectClass, hcls, hfun, hcustom, genericFallback,
          IValue.toGenericDict] at h
  | _ => simp [obj_loader, CompilationUnit.expectClass] at h

/-- One successful reconstruction on a registry that follows the schema. -/
theorem obj_loader_schema_step (env : Externals) (schema : Nat → List String)
    (cu cu1 : CompilationUnit) (type : TypePtr) (input : IValue) (obj : Object)
    (hno : NoSetstate env cu) (hfs : FollowsSchema schema cu)
    (hreq : ∀ slot entries, type = .ClassType slot → input = .GenericDict entries →
      entries.map (fun e => env.render e.1) = schema slot ∧ (schema slot).Nodup)
    (h : obj_loader env cu type input = (.ok obj, cu1)) :
    NoSetstate env cu1 ∧ FollowsSchema schema cu1 ∧
    (∀ s c, cu.getClass s = some c → c.attributeNames = schema s →
      ∃ c1, cu1.getClass s = some c1 ∧ c1.attributeNames = schema s) ∧
    ∃ slot entries cls1,
      type = .ClassType slot ∧ input = .GenericDict entries ∧
      obj.slots = entries.map Prod.snd ∧
      entries.map (fun e => env.render e.1) = schema slot ∧
      cu1.getClass slot = some cls1 ∧ cls1.attributeNames = schema slot := by
  obtain ⟨slot, cls, entries, cls1, rfl, rfl, hcls, hrun, rfl⟩ :=
    obj_loader_ok_fallback env cu cu1 type input obj hno h
  obtain ⟨hkeys, hnd⟩ := hreq slot entries rfl rfl
  obtain ⟨_, hslots⟩ := setAttributes_slots env entries 0 cls cls1 _ obj hrun
    (by simp [Object.create])
  obtain ⟨hname, _, _, hnames⟩ := setAttributes_class env entries 0 cls cls1 _ obj hrun
  have hnames1 : cls1.attributeNames = schema slot := by
    rw [hnames, hkeys]
    exact declareNames_schema _ _ hnd (hfs slot cls hcls)
  have hself := getClass_setClass_self cu slot cls cls1 hcls
  refine ⟨?_, ?_, ?_, slot, entries, cls1, rfl, rfl, by simpa using hslots, hkeys, hself, hnames1⟩
  · intro s c hc
    by_cases hs : s = slot
    · subst hs
      rw [hself] at hc
      cases hc
      rw [hname]
      exact hno s cls hcls
    · rw [getClass_setClass_other cu slot s cls1 hs] at hc
      exact hno s c hc
  · intro s c hc
    by_cases hs : s = slot
    · subst hs
      rw [hself] at hc
      cases hc
      exact Or.inr hnames1
    · rw [getClass_setClass_other cu slot s cls1 hs] at hc
      exact hfs s c hc
  · intro s c hc hcn
    by_cases hs : s = slot
    · subst hs
      exact ⟨cls1, hself, hnames1⟩
    · exact ⟨c, by rw [getClass_setClass_other cu slot s cls1 hs]; exact hc, hcn⟩

/-- A successful sequence of reconstructions on a registry that follows the
schema: every object holds the values of its payload, and its class has the
names of the schema once the sequence is over. -/
theorem loadObjects_schema (env : Externals) (schema : Nat → List String) :
    ∀ (reqs : List (TypePtr × IValue)) (cu cu1 : CompilationUnit) (objs : List Object),
      NoSetstate env cu → FollowsSchema schema cu → RequestsFollowSchema env schema reqs →
      loadObjects env cu reqs = (.ok objs, cu1) →
      objs.length = reqs.length ∧
      (∀ s c, cu.getClass s = some c → c.attributeNames = schema s →
        ∃ c1, cu1.getClass s = some c1 ∧ c1.attributeNames = schema s) ∧
      (∀ (k : Nat) (type : TypePtr) (input : IValue), reqs[k]? = some (type, input) →
        ∃ slot entries obj cls1,
          type = .ClassType slot ∧ input = .GenericDict entries ∧ objs[k]? = some obj ∧
          obj.slots = entries.map Prod.snd ∧
          entries.map (fun e => env.render e.1) = schema slot ∧
          cu1.getClass slot = some cls1 ∧ cls1.attributeNames = schema slot) := by
  intro reqs
  induction reqs with
  | nil =>
    intro cu cu1 objs _ _ _ h
    simp only [loadObjects, Prod.mk.injEq, Except.ok.injEq] at h
    obtain ⟨rfl, rfl⟩ := h
    exact ⟨rfl, fun s c hc hn => ⟨c, hc, hn⟩, by intro k type input hk; simp at hk⟩
  | cons r rest ih =>
    intro cu cu1 objs hno hfs hreqs h
    obtain ⟨type, input⟩ := r
    simp only [loadObjects] at h
    rcases hstep : obj_loader env cu type input with ⟨res, cu2⟩
    rw [hstep] at h
    cases res with
    | error e => simp at h
    | ok obj =>
      simp only at h
      rcases hrest : loadObjects env cu2 rest with ⟨res2, cu3⟩
      rw [hrest] at h
      cases res2 with
      | error e => simp at h
      | ok objs2 =>
        simp only [Prod.mk.injEq, Except.ok.injEq] at h
        obtain ⟨rfl, rfl⟩ := h
        have hreq : ∀ slot entries, type = .ClassType slot → input = .GenericDict entries →
            entries.map (fun e => env.render e.1) = schema slot ∧ (schema slot).Nodup := by
          intro slot entries ht hi
          subst ht hi
          exact hreqs slot entries (List.mem_cons_self _ _)
        obtain ⟨hno2, hfs2, hstable, slot, entries, cls1, ht, hi, hslots, hkeys, hc1, hn1⟩ :=
          obj_loader_schema_step env schema cu cu2 type input obj hno hfs hreq hstep
        have hreqs2 : RequestsFollowSchema env schema rest :=
          fun s es hmem => hreqs s es (List.mem_cons_of_mem _ hmem)
        obtain ⟨hlen, hstable2, hobjs⟩ := ih cu2 cu3 objs2 hno2 hfs2 hreqs2 hrest
        refine ⟨by simp [hlen], ?_, ?_⟩
        · intro s c hc hn
          obtain ⟨c2, hc2, hn2⟩ := hstable s c hc hn
          exact hstable2 s c2 hc2 hn2
        · intro k type1 input1 hk
          cases k with
          | zero =>
            simp only [List.getElem?_cons_zero, Option.some.injEq, Prod.mk.injEq] at hk
            obtain ⟨rfl, rfl⟩ := hk
            obtain ⟨c3, hc3, hn3⟩ := hstable2 slot cls1 hc1 hn1
            exact ⟨slot, entries, obj, c3, ht, hi, by simp, hslots, hkeys, hc3, hn3⟩
          | succ k =>
            simp only [List.getElem?_cons_succ] at hk
            obtain ⟨slot2, entries2, obj2, cls2, h1, h2, h3, h4, h5, h6, h7⟩ :=
              hobjs k type1 input1 hk
            exact ⟨slot2, entries2, obj2, cls2, h1, h2, by simpa using h3, h4, h5, h6, h7⟩

/-- The first `j` requests of a successful sequence succeed as well, with the
first `j` objects. -/
theorem loadObjects_take (env : Externals) :
    ∀ (reqs : List (TypePtr × IValue)) (cu cu1 : CompilationUnit) (objs : List Object) (j : Nat),
      loadObjects env cu reqs = (.ok objs, cu1) →
      (loadObjects env cu (reqs.take j)).1 = .ok (objs.take j) := by
  intro reqs
  induction reqs with
  | nil =>
    intro cu cu1 objs j h
    simp only [loadObjects, Prod.mk.injEq, Except.ok.injEq] at h
    obtain ⟨rfl, _⟩ := h
    simp [loadObjects]
  | cons r rest ih =>
    intro cu cu1 objs j h
    obtain ⟨type, input⟩ := r
    cases j with
    | zero => simp [loadObjects]
    | succ j =>
      simp only [loadObjects] at h
      simp only [List.take_succ_cons, loadObjects]
      rcases hstep : obj_loader env cu type input with ⟨res, cu2⟩
      rw [hstep] at h
      cases res with
      | error e => simp at h
      | ok obj =>
        simp only at h ⊢
        rcases hrest : loadObjects env cu2 rest with ⟨res2, cu3⟩
        rw [hrest] at h
        cases res2 with
        | error e => simp at h
        | ok objs2 =>
          simp only [Prod.mk.injEq, Except.ok.injEq] at h
          obtain ⟨rfl, _⟩ := h
          have := ih cu2 cu3 objs2 j hrest
          rcases htake : loadObjects env cu2 (rest.take j) with ⟨res3, cu4⟩
          rw [htake] at this
          simp only at this
          subst this
          simp

/-- C5 as stated fails: `__torch__.M` reconstructed from `{"a": 1, "b": 2}` and
then from `{"c": 3}`. Both reconstructions succeed; afterwards the type handle
declares three attributes `a`, `b`, `c`, the first object has two slots and the
second has one, and slot 0 of the second object holds the value of `c` while
the type handle binds index 0 to `a`. -/
theorem loadObjects_slot_count_counterexample :
    (loadObjects exampleEnv exampleUnit
        [(.ClassType 0, .GenericDict [(.String "a", .Int 1), (.String "b", .Int 2)]),
         (.ClassType 0, .GenericDict [(.String "c", .Int 3)])]).1 =
      .ok [{ type := .ClassType 0, slots := [.Int 1, .Int 2] },
           { type := .ClassType 0, slots := [.Int 3] }] ∧
    (loadObjects exampleEnv exampleUnit
        [(.ClassType 0, .GenericDict [(.String "a", .Int 1), (.String "b", .Int 2)]),
         (.ClassType 0, .GenericDict [(.String "c", .Int 3)])]).2 =
      { classes_ :=
          [{ name := exampleName, is_module := true,
             attributes := [("a", TypePtr.StringType), ("b", TypePtr.StringType),
               ("c", TypePtr.StringType)] }] } ∧
    ([IValue.Int 1, IValue.Int 2].length ≠
      [("a", TypePtr.StringType), ("b", TypePtr.StringType), ("c", TypePtr.StringType)].length) ∧
    ([IValue.Int 3].length ≠
      [("a", TypePtr.StringType), ("b", TypePtr.StringType), ("c", TypePtr.StringType)].length) :=
  ⟨rfl, by decide, by decide, by decide⟩

/-- C5, amended: in a successful sequence of generic-fallback reconstructions
against one registry in which each class starts without attributes (or with
those of its schema) and every payload of a class has the same distinct key
names in the same order, every returned object satisfies, in the registry as it
is after any number `j` of requests that includes its own: its slot count
equals the number of attributes declared on its type handle, and slot `i`
holds the value of the entry whose name the type handle binds to index `i`. -/
theorem loadObjects_slot_invariant (env : Externals) (schema : Nat → List String)
    (reqs : List (TypePtr × IValue)) (cu cu1 : CompilationUnit) (objs : List Object)
    (hno : NoSetstate env cu) (hfs : FollowsSchema schema cu)
    (hreqs : RequestsFollowSchema env schema reqs)
    (hrun : loadObjects env cu reqs = (.ok objs, cu1)) :
    objs.length = reqs.length ∧
    ∀ (k j : Nat) (type : TypePtr) (input : IValue) (obj : Object),
      reqs[k]? = some (type, input) → objs[k]? = some obj → k < j →
      ∃ slot entries cls,
        type = .ClassType slot ∧ input = .GenericDict entries ∧
        (loadObjects env cu (reqs.take j)).2.getClass slot = some cls ∧
        obj.slots.length = cls.attributes.length ∧
        ∀ (i : Nat) (key value : IValue), entries[i]? = some (key, value) →
          obj.slots[i]? = some value ∧ cls.attributeNames[i]? = some (env.render key) := by
  refine ⟨(loadObjects_schema env schema reqs cu cu1 objs hno hfs hreqs hrun).1, ?_⟩
  intro k j type input obj hk hobj hkj
  have htake := loadObjects_take env reqs cu cu1 objs j hrun
  rcases hj : loadObjects env cu (reqs.take j) with ⟨resj, cuj⟩
  rw [hj] at htake
  simp only at htake
  subst htake
  have hreqsj : RequestsFollowSchema env schema (reqs.take j) :=
    fun s es hmem => hreqs s es (List.mem_of_mem_take hmem)
  obtain ⟨_, _, hall⟩ :=
    loadObjects_schema env schema (reqs.take j) cu cuj (objs.take j) hno hfs hreqsj hj
  have hkj2 : (reqs.take j)[k]? = some (type, input) := by
    rw [List.getElem?_take_of_lt hkj]; exact hk
  obtain ⟨slot, entries, obj1, cls, ht, hi, hobj1, hslots, hkeys, hcls, hnames⟩ :=
    hall k type input hkj2
  have hsame : obj1 = obj := by
    rw [List.getElem?_take_of_lt hkj, hobj] at hobj1
    exact (Option.some.inj hobj1).symm
  subst hsame
  have hlen : cls.attributes.length = entries.length := by
    have h1 : cls.attributeNames.length = entries.length := by
      rw [hnames, ← hkeys]; simp
    simpa [ClassType.attributeNames] using h1
  refine ⟨slot, entries, cls, ht, hi, hcls, ?_, ?_⟩
  · rw [hslots, hlen]; simp
  · intro i key value hentry
    constructor
    · rw [hslots]; simp [hentry]
    · rw [hnames, ← hkeys]; simp [hentry]

/-- Witness for the amended C5: `__torch__.M` reconstructed from
`{"a": 1, "b": 2}` and then from `{"a": 3, "b": 4}`. -/
theorem loadObjects_slot_invariant_witness :
    loadObjects exampleEnv exampleUnit
        [(.ClassType 0, .GenericDict [(.String "a", .Int 1), (.String "b", .Int 2)]),
         (.ClassType 0, .GenericDict [(.String "a", .Int 3), (.String "b", .Int 4)])] =
      (.ok [{ type := .ClassType 0, slots := [.Int 1, .Int 2] },
            { type := .ClassType 0, slots := [.Int 3, .Int 4] }],
        { classes_ :=
            [{ name := exampleName, is_module := true,
               attributes := [("a", TypePtr.StringType), ("b", TypePtr.StringType)] }] }) ∧
    ([{ type := .ClassType 0, slots := [.Int 1, .Int 2] },
      { type := .ClassType 0, slots := [.Int 3, .Int 4] }] : List Object).length =
      ([(.ClassType 0, .GenericDict [(.String "a", .Int 1), (.String "b", .Int 2)]),
        (.ClassType 0, .GenericDict [(.String "a", .Int 3), (.String "b", .Int 4)])] :
        List (TypePtr × IValue)).length :=
  ⟨rfl,
    (loadObjects_slot_invariant exampleEnv (fun _ => ["a", "b"])
      [(.ClassType 0, .GenericDict [(.String "a", .Int 1), (.String "b", .Int 2)]),
       (.ClassType 0, .GenericDict [(.String "a", .Int 3), (.String "b", .Int 4)])]
      exampleUnit _ _
      (fun _ _ _ => ⟨rfl, rfl⟩)
      (by
        intro slot cls h
        cases slot with
        | zero =>
          simp only [CompilationUnit.getClass, exampleUnit, List.getElem?_cons_zero,
            Option.some.injEq] at h
          subst h
          exact Or.inl rfl
        | succ n => simp [CompilationUnit.getClass, exampleUnit] at h)
      (by
        intro slot entries hmem
        simp only [List.mem_cons, Prod.mk.injEq, TypePtr.ClassType.injEq,
          IValue.GenericDict.injEq, List.mem_nil_iff, or_false] at hmem
        rcases hmem with ⟨_, rfl⟩ | ⟨_, rfl⟩
        · exact ⟨rfl, by show (["a", "b"] : List String).Nodup; decide⟩
        · exact ⟨rfl, by show (["a", "b"] : List String).Nodup; decide⟩)
      rfl).1⟩

end torch.jit
